import Mathlib

/-!
Verification of the core time/interval/subtitle logic of the
Multilingual_VoiceOver repository.

The Python sources embedded here (shallowly) are:
* `app/models/Merger.py` — `TimeUtils.seconds_to_hms`, `TimeUtils.time_to_seconds`,
  `SegmentLogic.get_story_segments`;
* `app/utils/chunk_structure.py` — `FFmpegHandler.extract_segments` (segment-id
  validation and clip filenames) and `VideoProcessor.extract_segments` (the
  `(id, start)` sort of the merge plan);
* `app/postprocessing/integrating_srtfile.py` — `convert_srt_time_to_ass`,
  `create_ass_file` (style lookup and the gap-filling event loop) and
  `validate_video_formats`;
* `app/utils/language_const.py` — `LANGUAGE_CONFIG`.

Python strings are modelled as Lean `String`s (logically lists of characters);
Python `str.split(sep)` for a one-character separator is modelled by
`splitChar`.  Timestamps are whole seconds (`Nat`): every timestamp the
pipeline manipulates is produced by `seconds_to_hms`, which only ever emits
whole-second `"HH:MM:SS"` strings.
-/

/-- Characters of Python `s.split(sep)` for a single-character separator
`sep`, on the character list of `s`: splits at every occurrence of `c`,
keeping empty pieces, so the result is always nonempty. -/
def splitChar (c : Char) : List Char → List (List Char)
  | [] => [[]]
  | x :: xs =>
    let r := splitChar c xs
    if x = c then [] :: r
    else
      match r with
      | [] => [[x]]
      | y :: ys => (x :: y) :: ys

/-- Numeric value of a list of decimal digit characters, as Python
`int`/`float` computes it for a plain digit string (most significant first). -/
def digitsVal (l : List Char) : Nat :=
  l.foldl (fun a c => a * 10 + (c.toNat - 48)) 0

/-- Parse a nonempty all-digit character list as a natural number; `none`
otherwise.  Models Python `float(s)`/`int(s)` restricted to the nonnegative
whole-number strings the pipeline actually feeds it (Python raises on other
inputs; fallible code is modelled with `Option`). -/
def parseDigits (l : List Char) : Option Nat :=
  if l ≠ [] ∧ l.all Char.isDigit = true then some (digitsVal l) else none

/-- Python `f"{n:02}"`: decimal representation of `n`, zero-padded on the
left to width (at least) two. -/
def pad2 (n : Nat) : String :=
  if n < 10 then "0" ++ Nat.repr n else Nat.repr n

/-- `TimeUtils.seconds_to_hms` (Merger.py lines 26-31, identical copy in
chunk_structure.py): convert seconds to `"HH:MM:SS"`.  The source floors its
float argument field-wise with `int`; the model takes whole seconds
directly. -/
def seconds_to_hms (s : Nat) : String :=
  pad2 (s / 3600) ++ ":" ++ pad2 (s % 3600 / 60) ++ ":" ++ pad2 (s % 60)

/-- `TimeUtils.time_to_seconds` (Merger.py lines 33-37, identical copy in
chunk_structure.py): split on `":"` and evaluate `h*3600 + m*60 + s`.  The
source unpacks exactly three fields and calls `float` on each, raising
otherwise; the model returns `none` there. -/
def time_to_seconds (t : String) : Option Nat :=
  match splitChar ':' t.data with
  | [h, m, s] =>
    match parseDigits h, parseDigits m, parseDigits s with
    | some hv, some mv, some sv => some (hv * 3600 + mv * 60 + sv)
    | _, _, _ => none
  | _ => none

/-! Lemmas about `splitChar` and the two-digit fields. -/

theorem splitChar_not_mem (c : Char) : ∀ (a : List Char), c ∉ a → splitChar c a = [a] := by
  intro a
  induction a with
  | nil => intro _; rfl
  | cons x xs ih =>
    intro h
    have hx : ¬ (x = c) := fun hxc => h (by simp [hxc])
    have hxs : c ∉ xs := fun hm => h (List.mem_cons_of_mem _ hm)
    simp [splitChar, hx, ih hxs]

theorem splitChar_sep (c : Char) : ∀ (a b : List Char), c ∉ a →
    splitChar c (a ++ c :: b) = a :: splitChar c b := by
  intro a
  induction a with
  | nil => intro b _; simp [splitChar]
  | cons x xs ih =>
    intro b h
    have hx : ¬ (x = c) := fun hxc => h (by simp [hxc])
    have hxs : c ∉ xs := fun hm => h (List.mem_cons_of_mem _ hm)
    simp only [List.cons_append, splitChar, hx, if_false]
    rw [List.append_eq, ih b hxs]

theorem pad2_no_colon : ∀ n < 100, ':' ∉ (pad2 n).data ∧ ',' ∉ (pad2 n).data := by decide

theorem parseDigits_pad2 : ∀ n < 100, parseDigits (pad2 n).data = some n := by decide

/-- Round trip of the two `TimeUtils` conversions on whole seconds below one
hundred hours (the range a two-digit `HH` field covers). -/
theorem time_to_seconds_hms (s : Nat) (h : s < 360000) :
    time_to_seconds (seconds_to_hms s) = some s := by
  have hh : s / 3600 < 100 := by omega
  have hm : s % 3600 / 60 < 100 := by omega
  have hs : s % 60 < 100 := by omega
  have hd : (seconds_to_hms s).data
      = (pad2 (s / 3600)).data ++ ':' :: ((pad2 (s % 3600 / 60)).data ++ ':' :: (pad2 (s % 60)).data) := by
    simp [seconds_to_hms, String.data_append]
  rw [time_to_seconds, hd,
    splitChar_sep ':' _ _ (pad2_no_colon _ hh).1,
    splitChar_sep ':' _ _ (pad2_no_colon _ hm).1,
    splitChar_not_mem ':' _ (pad2_no_colon _ hs).1]
  simp [parseDigits_pad2 _ hh, parseDigits_pad2 _ hm, parseDigits_pad2 _ hs]
  omega

/-- Injectivity of `seconds_to_hms` below one hundred hours, via the round
trip. -/
theorem seconds_to_hms_inj (a b : Nat) (ha : a < 360000) (hb : b < 360000)
    (h : seconds_to_hms a = seconds_to_hms b) : a = b := by
  have r1 := time_to_seconds_hms a ha
  have r2 := time_to_seconds_hms b hb
  rw [h, r2] at r1
  exact (Option.some.injEq _ _).mp r1.symm

/-- C5: for every whole number of seconds below one hundred hours, converting
to `"HH:MM:SS"` with `seconds_to_hms` and back with `time_to_seconds` yields
exactly the original value. -/
theorem C5_time_roundtrip (s : Nat) (h : s < 360000) :
    time_to_seconds (seconds_to_hms s) = some s :=
  time_to_seconds_hms s h

/-- Witness for C5 at `s = 3723` (`"01:02:03"`). -/
theorem C5_time_roundtrip_witness :
    3723 < 360000 ∧ time_to_seconds (seconds_to_hms 3723) = some 3723 :=
  ⟨by decide, C5_time_roundtrip 3723 (by decide)⟩

/-! Interval partitioning: `SegmentLogic.get_story_segments` (Merger.py
lines 140-155). -/

/-- A `{start, end}` segment record as produced by
`SegmentExtractor.extract_segments_by_label` and consumed by
`SegmentLogic.get_story_segments`; both fields are `"HH:MM:SS"` strings.  The
source's `end` key is named `stop` here (`end` is a Lean keyword). -/
structure Seg where
  start : String
  stop : String
deriving DecidableEq

/-- Loop body of `get_story_segments`, with the running `prev_end` explicit:
whenever `prev_end != seg["start"]`, emit `{start: prev_end, end:
seg["start"]}`, then continue with `prev_end = seg["end"]`; after the loop,
if `prev_end != video_duration`, emit one final `{start: prev_end, end:
video_duration}`. -/
def storySegsFrom (prev_end video_duration : String) : List Seg → List Seg
  | [] => if prev_end ≠ video_duration then [⟨prev_end, video_duration⟩] else []
  | seg :: rest =>
    (if prev_end ≠ seg.start then [⟨prev_end, seg.start⟩] else [])
      ++ storySegsFrom seg.stop video_duration rest

/-- `SegmentLogic.get_story_segments` (Merger.py lines 140-155): derive the
story (non-song) segments, starting from `prev_end = "00:00:00"`. -/
def get_story_segments (song_segments : List Seg) (video_duration : String) : List Seg :=
  storySegsFrom "00:00:00" video_duration song_segments

/-- The same sweep over whole-second timestamps: the source compares
timestamp strings with `!=`, and on the canonical `"HH:MM:SS"` strings
produced by `seconds_to_hms` that comparison coincides with equality of the
underlying second counts (`seconds_to_hms_inj`), as `storySegsFrom_encode`
proves. -/
def storySegsFromN (prevEnd total : Nat) : List (Nat × Nat) → List (Nat × Nat)
  | [] => if prevEnd ≠ total then [(prevEnd, total)] else []
  | (s, e) :: rest =>
    (if prevEnd ≠ s then [(prevEnd, s)] else []) ++ storySegsFromN e total rest

/-- Whole-second counterpart of `get_story_segments`. -/
def get_story_segmentsN (songs : List (Nat × Nat)) (total : Nat) : List (Nat × Nat) :=
  storySegsFromN 0 total songs

/-- Encode a whole-second interval as a `{start, end}` record of canonical
`"HH:MM:SS"` strings. -/
def encSeg (x : Nat × Nat) : Seg :=
  ⟨seconds_to_hms x.1, seconds_to_hms x.2⟩

/-- Precondition of the sweep, from position `p`: the labeled intervals are
start-ordered, pairwise non-overlapping (`end ≤ next start`), nondegenerate
(`start < end`), start at or after `p`, and end by `total`. -/
def okFrom : Nat → Nat → List (Nat × Nat) → Bool
  | p, total, [] => decide (p ≤ total)
  | p, total, (s, e) :: rest => decide (p ≤ s) && decide (s < e) && okFrom e total rest

/-- A list of intervals tiles `[a, b)` exactly: the first starts at `a`, each
interval is nonempty and ends where the next starts, and the last ends at
`b`.  For a list sorted by start this is precisely gap-freeness and
overlap-freeness. -/
def chainFrom : Nat → Nat → List (Nat × Nat) → Prop
  | a, b, [] => a = b
  | a, b, (s, e) :: rest => a = s ∧ s < e ∧ chainFrom e b rest

/-- Comparison by interval start, used to merge the labeled partition with
its derived complement into start-sorted order. -/
def leStart (a b : Nat × Nat) : Bool := decide (a.1 ≤ b.1)

theorem okFrom_le : ∀ (l : List (Nat × Nat)) (p total : Nat),
    okFrom p total l = true → p ≤ total := by
  intro l
  induction l with
  | nil => intro p total h; simpa [okFrom] using h
  | cons x rest ih =>
    intro p total h
    obtain ⟨s, e⟩ := x
    simp only [okFrom, Bool.and_eq_true, decide_eq_true_eq] at h
    exact le_trans (le_trans h.1.1 (le_of_lt h.1.2)) (ih e total h.2)

theorem storySegsFromN_head_ge : ∀ (l : List (Nat × Nat)) (p total : Nat) (b : Nat × Nat)
    (t : List (Nat × Nat)), okFrom p total l = true →
    storySegsFromN p total l = b :: t → p ≤ b.1 := by
  intro l
  induction l with
  | nil =>
    intro p total b t _ hst
    simp only [storySegsFromN] at hst
    by_cases hp : p = total
    · simp [hp] at hst
    · rw [if_pos hp] at hst
      have hb : (p, total) = b := ((List.cons.injEq _ _ _ _).mp hst).1
      rw [← hb]
  | cons x rest ih =>
    intro p total b t hok hst
    obtain ⟨s, e⟩ := x
    simp only [okFrom, Bool.and_eq_true, decide_eq_true_eq] at hok
    simp only [storySegsFromN] at hst
    by_cases hp : p = s
    · rw [if_neg (by simp [hp]), List.nil_append] at hst
      have : e ≤ b.1 := ih e total b t hok.2 hst
      omega
    · rw [if_pos hp, List.singleton_append] at hst
      have hb : (p, s) = b := ((List.cons.injEq _ _ _ _).mp hst).1
      rw [← hb]

theorem storySegsFromN_nil_chain : ∀ (l : List (Nat × Nat)) (p total : Nat),
    okFrom p total l = true → storySegsFromN p total l = [] → chainFrom p total l := by
  intro l
  induction l with
  | nil =>
    intro p total _ hst
    simp only [storySegsFromN] at hst
    by_cases hp : p = total
    · exact hp
    · rw [if_pos hp] at hst
      exact absurd hst (by simp)
  | cons x rest ih =>
    intro p total hok hst
    obtain ⟨s, e⟩ := x
    simp only [okFrom, Bool.and_eq_true, decide_eq_true_eq] at hok
    simp only [storySegsFromN] at hst
    by_cases hp : p = s
    · rw [if_neg (by simp [hp]), List.nil_append] at hst
      exact ⟨hp, hok.1.2, ih e total hok.2 hst⟩
    · rw [if_pos hp, List.singleton_append] at hst
      exact absurd hst (by simp)

/-- Merging the labeled intervals with the segments the sweep derives from
position `p` yields a chain that tiles `[p, total)` exactly. -/
theorem chainFrom_merge_story : ∀ (songs : List (Nat × Nat)) (p total : Nat),
    okFrom p total songs = true →
    chainFrom p total (List.merge songs (storySegsFromN p total songs) leStart) := by
  intro songs
  induction songs with
  | nil =>
    intro p total hok
    simp only [okFrom, decide_eq_true_eq] at hok
    rw [List.nil_merge]
    simp only [storySegsFromN]
    by_cases hp : p = total
    · rw [if_neg (by simp [hp])]
      exact hp
    · rw [if_pos hp]
      exact ⟨rfl, by omega, rfl⟩
  | cons x rest ih =>
    intro p total hok
    obtain ⟨s, e⟩ := x
    simp only [okFrom, Bool.and_eq_true, decide_eq_true_eq] at hok
    obtain ⟨⟨hps, hse⟩, hrest⟩ := hok
    have key : chainFrom s total
        (List.merge ((s, e) :: rest) (storySegsFromN e total rest) leStart) := by
      cases hstory : storySegsFromN e total rest with
      | nil =>
        rw [List.merge_right]
        exact ⟨rfl, hse, storySegsFromN_nil_chain rest e total hrest hstory⟩
      | cons b t =>
        have hb : e ≤ b.1 := storySegsFromN_head_ge rest e total b t hrest hstory
        have hle : leStart (s, e) b = true := by
          simp only [leStart, decide_eq_true_eq]
          omega
        rw [List.merge, if_pos hle]
        refine ⟨rfl, hse, ?_⟩
        rw [← hstory]
        exact ih e total hrest
    simp only [storySegsFromN]
    by_cases hp : p = s
    · rw [if_neg (by simp [hp]), List.nil_append, hp]
      exact key
    · rw [if_pos hp, List.singleton_append]
      have hnle : leStart (s, e) (p, s) = false := by
        simp only [leStart, decide_eq_false_iff_not]
        omega
      rw [List.merge, if_neg (by simp [hnle])]
      exact ⟨rfl, by omega, key⟩

/-- On canonical `"HH:MM:SS"` timestamps (below one hundred hours), the
source's string-compared sweep computes exactly the whole-second sweep: the
string inequalities `prev_end != start` and `prev_end != video_duration`
coincide with the corresponding inequalities of second counts. -/
theorem storySegsFrom_encode (total : Nat) (htot : total < 360000) :
    ∀ (l : List (Nat × Nat)) (p : Nat), p < 360000 → okFrom p total l = true →
    storySegsFrom (seconds_to_hms p) (seconds_to_hms total) (l.map encSeg)
      = (storySegsFromN p total l).map encSeg := by
  intro l
  induction l with
  | nil =>
    intro p hp _
    simp only [List.map_nil, storySegsFrom, storySegsFromN]
    by_cases hpt : p = total
    · rw [if_neg (by simp [hpt]), if_neg (by simp [hpt]), List.map_nil]
    · have hne : seconds_to_hms p ≠ seconds_to_hms total :=
        fun h => hpt (seconds_to_hms_inj p total hp htot h)
      rw [if_pos hne, if_pos hpt]
      rfl
  | cons x rest ih =>
    intro p hp hok
    obtain ⟨s, e⟩ := x
    simp only [okFrom, Bool.and_eq_true, decide_eq_true_eq] at hok
    obtain ⟨⟨hps, hse⟩, hrest⟩ := hok
    have he : e ≤ total := okFrom_le rest e total hrest
    have hs : s < 360000 := by omega
    have heb : e < 360000 := by omega
    simp only [List.map_cons, storySegsFrom, storySegsFromN, encSeg]
    rw [ih e heb hrest]
    by_cases hpx : p = s
    · rw [if_neg (by simp [hpx]), if_neg (by simp [hpx]), List.nil_append, List.nil_append]
    · have hne : seconds_to_hms p ≠ seconds_to_hms s :=
        fun h => hpx (seconds_to_hms_inj p s hp hs h)
      rw [if_pos hne, if_pos hpx]
      rfl

/-- C1: for every start-ordered, pairwise non-overlapping, nondegenerate list
of labeled intervals contained in `[0, total)` (`okFrom 0 total songs`),
(1) the labeled intervals merged by start with the complement derived by the
`get_story_segments` sweep tile `[0, total)` with no gap and no overlap;
(2) on the canonical `"HH:MM:SS"` encodings (for media under one hundred
hours) the source function `get_story_segments` emits exactly the encoded
gap intervals computed by the sweep — `[prevEnd, start)` whenever `prevEnd`
differs from the current start (with `prevEnd` starting at zero), plus a
final `[prevEnd, total)` when `prevEnd` differs from the total duration; and
(3) on `[{start:"00:00:10", end:"00:00:20"}]` with total duration
`"00:01:00"` it yields exactly
`[{start:"00:00:00", end:"00:00:10"}, {start:"00:00:20", end:"00:01:00"}]`. -/
theorem C1_derive_complement_tiles (songs : List (Nat × Nat)) (total : Nat)
    (hok : okFrom 0 total songs = true) :
    chainFrom 0 total (List.merge songs (get_story_segmentsN songs total) leStart)
    ∧ (total < 360000 →
        get_story_segments (songs.map encSeg) (seconds_to_hms total)
          = (get_story_segmentsN songs total).map encSeg)
    ∧ get_story_segments [⟨"00:00:10", "00:00:20"⟩] "00:01:00"
        = [⟨"00:00:00", "00:00:10"⟩, ⟨"00:00:20", "00:01:00"⟩] := by
  refine ⟨chainFrom_merge_story songs 0 total hok, ?_, by decide⟩
  intro htot
  have h0 : seconds_to_hms 0 = "00:00:00" := by decide
  rw [get_story_segments, get_story_segmentsN, ← h0]
  exact storySegsFrom_encode total htot songs 0 (by omega) hok

/-- Witness for C1 at `songs = [(10, 20)]`, `total = 60` (the spec's own
example, in seconds). -/
theorem C1_derive_complement_tiles_witness :
    okFrom 0 60 [(10, 20)] = true
    ∧ (chainFrom 0 60 (List.merge [(10, 20)] (get_story_segmentsN [(10, 20)] 60) leStart)
        ∧ (60 < 360000 →
            get_story_segments ([(10, 20)].map encSeg) (seconds_to_hms 60)
              = (get_story_segmentsN [(10, 20)] 60).map encSeg)
        ∧ get_story_segments [⟨"00:00:10", "00:00:20"⟩] "00:01:00"
            = [⟨"00:00:00", "00:00:10"⟩, ⟨"00:00:20", "00:01:00"⟩]) :=
  ⟨by decide, C1_derive_complement_tiles [(10, 20)] 60 (by decide)⟩

/-! Clip extraction and the merge plan: `FFmpegHandler.extract_segments` and
`VideoProcessor.extract_segments` (chunk_structure.py). -/

/-- A JSON scalar as it reaches the `id` field of a manifest record: absent
(`null`), a number, or a string. -/
inductive JVal where
  | jnull : JVal
  | jint : Int → JVal
  | jstr : String → JVal
deriving DecidableEq

/-- Python `int(x)` on an id value: an integer passes through, a string must
be (an optional sign and) decimal digits, anything else raises
(`ValueError`/`TypeError`), modelled as `none`.  Surrounding whitespace,
which Python would strip, is not modelled. -/
def pyInt : JVal → Option Int
  | .jnull => none
  | .jint n => some n
  | .jstr s =>
    match s.data with
    | '-' :: rest =>
      if rest ≠ [] ∧ rest.all Char.isDigit = true then some (-(digitsVal rest : Int)) else none
    | l =>
      if l ≠ [] ∧ l.all Char.isDigit = true then some ((digitsVal l : Int)) else none

/-- One entry of the `outputs` list built by `FFmpegHandler.extract_segments`
(chunk_structure.py lines 97-102): `{"file": out_file, "id": seg_id,
"start": start, "end": end}`.  The `end` key is named `stop` (Lean
keyword). -/
structure Clip where
  file : String
  id : JVal
  start : String
  stop : String
deriving DecidableEq

/-- First component of the sort key of `VideoProcessor.extract_segments`
(chunk_structure.py line 331): `int(x.get("id", 0))`.  The `"id"` key is
always present on extracted clips and, extraction having succeeded, always
parses, so the fallback `0` of `getD` is never reached there. -/
def clipIdKey (c : Clip) : Int := (pyInt c.id).getD 0

/-- Second component of the sort key:
`TimeUtils.time_to_seconds(x["start"])`. -/
def clipStartKey (c : Clip) : Nat := (time_to_seconds c.start).getD 0

/-- The comparison realising Python's lexicographic tuple order on
`(int(x.get("id", 0)), time_to_seconds(x["start"]))`. -/
def clipLE (a b : Clip) : Bool :=
  decide (clipIdKey a < clipIdKey b
    ∨ (clipIdKey a = clipIdKey b ∧ clipStartKey a ≤ clipStartKey b))

/-- The sort of `VideoProcessor.extract_segments` (chunk_structure.py lines
329-331): `sorted(all_segments, key=lambda x: (int(x.get("id", 0)),
TimeUtils.time_to_seconds(x["start"])))`.  Python's `sorted` and
`List.mergeSort` are both stable sorts with respect to the same total
preorder, hence compute the same list. -/
def all_segments_sorted (all_segments : List Clip) : List Clip :=
  all_segments.mergeSort clipLE

theorem clipLE_trans (a b c : Clip) (h1 : clipLE a b = true) (h2 : clipLE b c = true) :
    clipLE a c = true := by
  simp only [clipLE, decide_eq_true_eq] at h1 h2 ⊢
  omega

theorem clipLE_total (a b : Clip) : clipLE a b || clipLE b a := by
  simp only [clipLE, Bool.or_eq_true, decide_eq_true_eq]
  omega

/-- C2: the reassembly sort orders the clip collection by source-interval id
ascending first and start time ascending second, and every clip of the input
collection appears in the resulting merge plan exactly as often as in the
input — in particular exactly once when the inputs are distinct. -/
theorem C2_merge_plan_sorted (all_segments : List Clip) :
    (∀ c : Clip, (all_segments_sorted all_segments).count c = all_segments.count c)
    ∧ (all_segments_sorted all_segments).Pairwise (fun a b =>
        clipIdKey a < clipIdKey b
        ∨ (clipIdKey a = clipIdKey b ∧ clipStartKey a ≤ clipStartKey b)) := by
  constructor
  · intro c
    exact (List.mergeSort_perm all_segments clipLE).count_eq c
  · have hs := List.sorted_mergeSort clipLE_trans clipLE_total all_segments
    exact hs.imp (by intro a b h; simpa [clipLE, decide_eq_true_eq] using h)

/-- One manifest interval record as consumed by
`FFmpegHandler.extract_segments`: `{id, label, start, end}` (the `end` key is
named `stop`; Lean keyword). -/
structure JSeg where
  id : JVal
  label : String
  start : String
  stop : String
deriving DecidableEq

/-- Python `f"{i:03d}"`: decimal representation of `i` zero-padded to width
three (a sign counts towards the width). -/
def pad3Int (i : Int) : String :=
  if i < 0 then
    "-" ++ (if -i < 10 then "0" ++ Nat.repr (-i).toNat else Nat.repr (-i).toNat)
  else
    if i < 10 then "00" ++ Nat.repr i.toNat
    else if i < 100 then "0" ++ Nat.repr i.toNat
    else Nat.repr i.toNat

/-- Python `s.replace(":", "-")`. -/
def replaceColonDash (s : String) : String :=
  ⟨s.data.map (fun c => if c = ':' then '-' else c)⟩

/-- The clip filename built by `FFmpegHandler.extract_segments`
(chunk_structure.py lines 90-94):
`f"{movie_name}_{seg_id_num:03d}_{start_str}_to_{end_str}_{lang_suffix}.{ext}"`
where `start_str`/`end_str` are the timestamps with `":"` replaced by
`"-"`. -/
def clip_filename (movie_name : String) (seg_id_num : Int)
    (start stop lang_suffix ext : String) : String :=
  movie_name ++ "_" ++ pad3Int seg_id_num ++ "_" ++ replaceColonDash start
    ++ "_to_" ++ replaceColonDash stop ++ "_" ++ lang_suffix ++ "." ++ ext

/-- The clip record `FFmpegHandler.extract_segments` appends for a segment
whose id parsed (its `out_file` lives under `output_dir`, joined as
`os.path.join` does for a dir without trailing slash). -/
def clip_of (output_dir movie_name ext lang_suffix : String) (seg : JSeg) : Clip :=
  { file := output_dir ++ "/"
      ++ clip_filename movie_name ((pyInt seg.id).getD 0) seg.start seg.stop lang_suffix ext,
    id := seg.id, start := seg.start, stop := seg.stop }

/-- `FFmpegHandler.extract_segments` (chunk_structure.py lines 72-105),
modelled as the list of clip records produced together with the id value on
which the loop raised `ValueError` (line 89), if any: `int(seg_id)` is tried
before the output filename is built and the cut is run, so a segment whose
id does not parse contributes no clip and aborts the rest of the loop.
`movie_name` and `ext` stand for the base name and extension the source
derives from `video_path`; the ffmpeg stream-copy cut itself is an external
side effect with no bearing on the returned records. -/
def extract_segments (output_dir movie_name ext lang_suffix : String) :
    List JSeg → List Clip × Option JVal
  | [] => ([], none)
  | seg :: rest =>
    match pyInt seg.id with
    | none => ([], some seg.id)
    | some n =>
      let out := extract_segments output_dir movie_name ext lang_suffix rest
      (({ file := output_dir ++ "/"
            ++ clip_filename movie_name n seg.start seg.stop lang_suffix ext,
          id := seg.id, start := seg.start, stop := seg.stop } : Clip) :: out.1,
        out.2)

theorem extract_segments_all_good (output_dir movie_name ext lang_suffix : String) :
    ∀ (segs : List JSeg), (∀ s ∈ segs, (pyInt s.id).isSome = true) →
    extract_segments output_dir movie_name ext lang_suffix segs
      = (segs.map (clip_of output_dir movie_name ext lang_suffix), none) := by
  intro segs
  induction segs with
  | nil => intro _; rfl
  | cons seg rest ih =>
    intro h
    have hseg := h seg (List.mem_cons_self _ _)
    obtain ⟨n, hn⟩ := Option.isSome_iff_exists.mp hseg
    have hrest := ih (fun s hs => h s (List.mem_cons_of_mem _ hs))
    simp only [extract_segments, hn, hrest, List.map_cons]
    simp [clip_of, hn]

theorem extract_segments_first_bad (output_dir movie_name ext lang_suffix : String) :
    ∀ (pre : List JSeg) (bad : JSeg) (suff : List JSeg),
    (∀ s ∈ pre, (pyInt s.id).isSome = true) → pyInt bad.id = none →
    extract_segments output_dir movie_name ext lang_suffix (pre ++ bad :: suff)
      = (pre.map (clip_of output_dir movie_name ext lang_suffix), some bad.id) := by
  intro pre
  induction pre with
  | nil =>
    intro bad suff _ hbad
    simp only [List.nil_append, extract_segments, hbad, List.map_nil]
  | cons seg rest ih =>
    intro bad suff h hbad
    have hseg := h seg (List.mem_cons_self _ _)
    obtain ⟨n, hn⟩ := Option.isSome_iff_exists.mp hseg
    have hrest := ih bad suff (fun s hs => h s (List.mem_cons_of_mem _ hs)) hbad
    simp only [List.cons_append, extract_segments, List.append_eq, hn, hrest, List.map_cons]
    simp [clip_of, hn]

/-- C7: a segment whose id does not parse as an integer (for example the
string `"a1"`, or a missing id) makes `extract_segments` raise before any
clip is produced for it: the loop output ends at the clips of the parseable
prefix and carries the offending id as a hard error, while a run in which
every id parses extracts one clip per segment with no error. -/
theorem C7_segment_id_error (output_dir movie_name ext lang_suffix : String)
    (segs : List JSeg) :
    ((∀ s ∈ segs, (pyInt s.id).isSome = true) →
      extract_segments output_dir movie_name ext lang_suffix segs
        = (segs.map (clip_of output_dir movie_name ext lang_suffix), none))
    ∧ (∀ (pre : List JSeg) (bad : JSeg) (suff : List JSeg),
        segs = pre ++ bad :: suff →
        (∀ s ∈ pre, (pyInt s.id).isSome = true) → pyInt bad.id = none →
        extract_segments output_dir movie_name ext lang_suffix segs
          = (pre.map (clip_of output_dir movie_name ext lang_suffix), some bad.id))
    ∧ pyInt (JVal.jstr "a1") = none ∧ pyInt JVal.jnull = none := by
  refine ⟨extract_segments_all_good output_dir movie_name ext lang_suffix segs,
    ?_, by decide, rfl⟩
  intro pre bad suff hsplit hpre hbad
  rw [hsplit]
  exact extract_segments_first_bad output_dir movie_name ext lang_suffix pre bad suff hpre hbad

/-- Witness for C7: the id `"a1"` in the middle of a batch aborts extraction
there, leaving only the clip of the parseable prefix and the
segment-id error. -/
theorem C7_segment_id_error_witness :
    extract_segments "clips" "movie" "mp4" "hi"
        [⟨JVal.jint 1, "voice", "00:00:00", "00:00:05"⟩,
         ⟨JVal.jstr "a1", "voice", "00:00:05", "00:00:10"⟩,
         ⟨JVal.jint 3, "voice", "00:00:10", "00:00:15"⟩]
      = ([clip_of "clips" "movie" "mp4" "hi" ⟨JVal.jint 1, "voice", "00:00:00", "00:00:05"⟩],
         some (JVal.jstr "a1")) :=
  (C7_segment_id_error "clips" "movie" "mp4" "hi" _).2.1
    [⟨JVal.jint 1, "voice", "00:00:00", "00:00:05"⟩]
    ⟨JVal.jstr "a1", "voice", "00:00:05", "00:00:10"⟩
    [⟨JVal.jint 3, "voice", "00:00:10", "00:00:15"⟩]
    rfl (by decide) (by decide)

set_option maxRecDepth 8000 in
theorem pad3Int_length : ∀ n : Nat, n < 1000 → (pad3Int (n : Int)).length = 3 := by decide

theorem replaceColonDash_no_colon (t : String) : ':' ∉ (replaceColonDash t).data := by
  intro hmem
  have : ':' ∈ t.data.map (fun c => if c = ':' then '-' else c) := hmem
  obtain ⟨c, _, heq⟩ := List.mem_map.mp this
  by_cases hc : c = ':'
  · rw [if_pos hc] at heq
    exact absurd heq (by decide)
  · rw [if_neg hc] at heq
    exact hc heq

/-- C8 counterexample: with media base name `movie`, id `1`, interval
`[00:00:10, 00:00:20)`, suffix `hi` and extension `mp4`, extraction produces
`clips/movie_001_00-00-10_to_00-00-20_hi.mp4` — the literal `_to_` sits
between the two timestamps — and not the name
`clips/movie_001_00-00-10_00-00-20_hi.mp4` that the claimed form
`<mediaBaseName>_<id:03d>_<start>_<end>_<suffix>.<ext>` prescribes. -/
theorem C8_filename_counterexample :
    (extract_segments "clips" "movie" "mp4" "hi"
        [⟨JVal.jint 1, "song", "00:00:10", "00:00:20"⟩]).1.map Clip.file
      = ["clips/movie_001_00-00-10_to_00-00-20_hi.mp4"]
    ∧ ("clips/movie_001_00-00-10_to_00-00-20_hi.mp4" : String)
      ≠ "clips/movie_001_00-00-10_00-00-20_hi.mp4" := by
  constructor
  · rfl
  · decide

/-- C8 (amended): for every interval with integer id the extracted clip's
output filename is deterministically built from the media base name, the id
zero-padded to 3 digits, the start timestamp, the end timestamp, and the
language/label suffix, in the form
`<mediaBaseName>_<id:03d>_<start>_to_<end>_<suffix>.<ext>`, with every `":"`
in the embedded timestamps replaced by `"-"`. -/
theorem C8_clip_filename (output_dir movie_name ext lang_suffix : String)
    (segs : List JSeg) (h : ∀ s ∈ segs, (pyInt s.id).isSome = true) :
    ((extract_segments output_dir movie_name ext lang_suffix segs).1).map Clip.file
      = segs.map (fun s =>
          output_dir ++ "/" ++ movie_name ++ "_" ++ pad3Int ((pyInt s.id).getD 0) ++ "_"
            ++ replaceColonDash s.start ++ "_to_" ++ replaceColonDash s.stop ++ "_"
            ++ lang_suffix ++ "." ++ ext)
    ∧ (∀ n : Nat, n < 1000 → (pad3Int (n : Int)).length = 3)
    ∧ (∀ t : String, ':' ∉ (replaceColonDash t).data) := by
  refine ⟨?_, pad3Int_length, replaceColonDash_no_colon⟩
  rw [extract_segments_all_good output_dir movie_name ext lang_suffix segs h, List.map_map]
  apply List.map_congr_left
  intro s _
  simp [clip_of, clip_filename, Function.comp]
  simp [String.ext_iff]

/-- Witness for C8 at a single segment with id `1` over
`[00:00:10, 00:00:20)`. -/
theorem C8_clip_filename_witness :
    (∀ s ∈ [(⟨JVal.jint 1, "song", "00:00:10", "00:00:20"⟩ : JSeg)],
        (pyInt s.id).isSome = true)
    ∧ ((extract_segments "clips" "movie" "mp4" "hi"
          [⟨JVal.jint 1, "song", "00:00:10", "00:00:20"⟩]).1).map Clip.file
        = [(⟨JVal.jint 1, "song", "00:00:10", "00:00:20"⟩ : JSeg)].map (fun s =>
            "clips" ++ "/" ++ "movie" ++ "_" ++ pad3Int ((pyInt s.id).getD 0) ++ "_"
              ++ replaceColonDash s.start ++ "_to_" ++ replaceColonDash s.stop ++ "_"
              ++ "hi" ++ "." ++ "mp4") :=
  ⟨by decide, (C8_clip_filename "clips" "movie" "mp4" "hi"
      [⟨JVal.jint 1, "song", "00:00:10", "00:00:20"⟩] (by decide)).1⟩

/-! Subtitle timestamp conversion and the ASS event loop
(integrating_srtfile.py). -/

/-- Python `s[:2].ljust(2, '0')` (already truncated: the argument is the
two-character prefix): pad on the right with `'0'` to length two. -/
def ljust2 (l : List Char) : List Char :=
  l ++ List.replicate (2 - l.length) '0'

/-- `VideoProcessor.convert_srt_time_to_ass` (integrating_srtfile.py lines
178-188).  If the timestamp has a comma, split there, keep only the first
two millisecond digits and right-pad them with `'0'` to two; otherwise use
`"00"`.  Split the time part on `":"`, strip leading zeros from the hour
field via `str(int(hours))`, and reassemble as `"H:MM:SS.cc"`.  The source
raises where a split does not unpack (more than one comma, not exactly three
colon fields) or where the hour field is not numeric; those paths never
arise for well-formed SRT timestamps and fall through unchanged here. -/
def convert_srt_time_to_ass (srt_time : String) : String :=
  let tm : List Char × List Char :=
    if ',' ∈ srt_time.data then
      match splitChar ',' srt_time.data with
      | [t, m] => (t, ljust2 (m.take 2))
      | _ => (srt_time.data, ['0', '0'])
    else (srt_time.data, ['0', '0'])
  match splitChar ':' tm.1 with
  | [hs, ms, ss] => ⟨(Nat.repr (digitsVal hs)).data ++ ':' :: ms ++ ':' :: ss ++ '.' :: tm.2⟩
  | _ => ⟨tm.1 ++ '.' :: tm.2⟩

theorem all_digits_no_sep (l : List Char) (h : l.all Char.isDigit = true) :
    ':' ∉ l ∧ ',' ∉ l := by
  have h2 := List.all_eq_true.mp h
  constructor
  · intro hm
    exact absurd (h2 _ hm) (by decide)
  · intro hm
    exact absurd (h2 _ hm) (by decide)

theorem mem_timepart_cases (hh mm ss : List Char) (c : Char)
    (hm : c ∈ hh ++ c1 :: (mm ++ c2 :: ss)) :
    c ∈ hh ∨ c = c1 ∨ c ∈ mm ∨ c = c2 ∨ c ∈ ss := by
  rcases List.mem_append.mp hm with h | h
  · exact Or.inl h
  · rcases List.mem_cons.mp h with h | h
    · exact Or.inr (Or.inl h)
    · rcases List.mem_append.mp h with h | h
      · exact Or.inr (Or.inr (Or.inl h))
      · rcases List.mem_cons.mp h with h | h
        · exact Or.inr (Or.inr (Or.inr (Or.inl h)))
        · exact Or.inr (Or.inr (Or.inr (Or.inr h)))

theorem convert_srt_with_ms (hh mm ss ms : List Char)
    (hhd : hh.all Char.isDigit = true)
    (hmm : ':' ∉ mm ∧ ',' ∉ mm) (hss : ':' ∉ ss ∧ ',' ∉ ss) (hms : ',' ∉ ms) :
    convert_srt_time_to_ass ⟨(hh ++ ':' :: (mm ++ ':' :: ss)) ++ ',' :: ms⟩
      = ⟨(Nat.repr (digitsVal hh)).data
          ++ ':' :: (mm ++ ':' :: (ss ++ '.' :: ljust2 (ms.take 2)))⟩ := by
  obtain ⟨hhc, hhm⟩ := all_digits_no_sep hh hhd
  have hA : ',' ∉ hh ++ ':' :: (mm ++ ':' :: ss) := by
    intro hm
    rcases mem_timepart_cases hh mm ss ',' hm with h | h | h | h | h
    · exact hhm h
    · exact absurd h (by decide)
    · exact hmm.2 h
    · exact absurd h (by decide)
    · exact hss.2 h
  have hsplit1 : splitChar ',' ((hh ++ ':' :: (mm ++ ':' :: ss)) ++ ',' :: ms)
      = [hh ++ ':' :: (mm ++ ':' :: ss), ms] := by
    rw [splitChar_sep ',' _ ms hA, splitChar_not_mem ',' ms hms]
  have hsplit2 : splitChar ':' (hh ++ ':' :: (mm ++ ':' :: ss)) = [hh, mm, ss] := by
    rw [splitChar_sep ':' hh _ hhc, splitChar_sep ':' mm ss hmm.1,
      splitChar_not_mem ':' ss hss.1]
  simp only [List.append_assoc, List.cons_append] at hsplit1
  simp [convert_srt_time_to_ass, hsplit1, hsplit2]

theorem convert_srt_no_ms (hh mm ss : List Char)
    (hhd : hh.all Char.isDigit = true)
    (hmm : ':' ∉ mm ∧ ',' ∉ mm) (hss : ':' ∉ ss ∧ ',' ∉ ss) :
    convert_srt_time_to_ass ⟨hh ++ ':' :: (mm ++ ':' :: ss)⟩
      = ⟨(Nat.repr (digitsVal hh)).data ++ ':' :: (mm ++ ':' :: (ss ++ ['.', '0', '0']))⟩ := by
  obtain ⟨hhc, hhm⟩ := all_digits_no_sep hh hhd
  have hsplit2 : splitChar ':' (hh ++ ':' :: (mm ++ ':' :: ss)) = [hh, mm, ss] := by
    rw [splitChar_sep ':' hh _ hhc, splitChar_sep ':' mm ss hmm.1,
      splitChar_not_mem ':' ss hss.1]
  simp [convert_srt_time_to_ass, hsplit2, hhm, hmm.2, hss.2]

/-- C4: SRT-to-ASS timestamp conversion strips leading zeros from the hour
field (`str(int(hours))`), keeps only the first two millisecond digits
(`ms.take 2` — truncation, never rounding), and zero-pads to two fractional
digits (`ljust2`) — in particular emitting `".00"` when the source timestamp
has no millisecond component; `"00:00:01,500"` converts to `"0:00:01.50"`
and `"01:02:03,009"` to `"1:02:03.00"`. -/
theorem C4_srt_to_ass_conversion (hh mm ss ms : List Char)
    (hhd : hh.all Char.isDigit = true)
    (hmm : ':' ∉ mm ∧ ',' ∉ mm) (hss : ':' ∉ ss ∧ ',' ∉ ss) (hms : ',' ∉ ms) :
    convert_srt_time_to_ass ⟨(hh ++ ':' :: (mm ++ ':' :: ss)) ++ ',' :: ms⟩
      = ⟨(Nat.repr (digitsVal hh)).data
          ++ ':' :: (mm ++ ':' :: (ss ++ '.' :: ljust2 (ms.take 2)))⟩
    ∧ convert_srt_time_to_ass ⟨hh ++ ':' :: (mm ++ ':' :: ss)⟩
      = ⟨(Nat.repr (digitsVal hh)).data ++ ':' :: (mm ++ ':' :: (ss ++ ['.', '0', '0']))⟩
    ∧ convert_srt_time_to_ass "00:00:01,500" = "0:00:01.50"
    ∧ convert_srt_time_to_ass "01:02:03,009" = "1:02:03.00" :=
  ⟨convert_srt_with_ms hh mm ss ms hhd hmm hss hms,
   convert_srt_no_ms hh mm ss hhd hmm hss, by decide, by decide⟩

/-- Witness for C4 at `"00:00:01,500"` split into its four fields. -/
theorem C4_srt_to_ass_conversion_witness :
    (['0', '0'].all Char.isDigit = true)
    ∧ (convert_srt_time_to_ass ⟨(['0', '0'] ++ ':' :: (['0', '0'] ++ ':' :: ['0', '1']))
          ++ ',' :: ['5', '0', '0']⟩
        = ⟨(Nat.repr (digitsVal ['0', '0'])).data
            ++ ':' :: (['0', '0'] ++ ':' :: (['0', '1'] ++ '.' :: ljust2 (['5', '0', '0'].take 2)))⟩
      ∧ convert_srt_time_to_ass ⟨['0', '0'] ++ ':' :: (['0', '0'] ++ ':' :: ['0', '1'])⟩
        = ⟨(Nat.repr (digitsVal ['0', '0'])).data
            ++ ':' :: (['0', '0'] ++ ':' :: (['0', '1'] ++ ['.', '0', '0']))⟩
      ∧ convert_srt_time_to_ass "00:00:01,500" = "0:00:01.50"
      ∧ convert_srt_time_to_ass "01:02:03,009" = "1:02:03.00") :=
  ⟨by decide, C4_srt_to_ass_conversion ['0', '0'] ['0', '0'] ['0', '1'] ['5', '0', '0']
    (by decide) ⟨by decide, by decide⟩ ⟨by decide, by decide⟩ (by decide)⟩

/-! The styled timeline: `create_ass_file` (integrating_srtfile.py lines
191-238). -/

/-- One parsed SRT cue block: start and end timestamps (the `"HH:MM:SS,mmm"`
strings on either side of `-->`) and the joined text lines.  Blocks with
fewer than three lines or no `-->`, which the source skips, are outside this
model: the cue list is the well-formed blocks in file order. -/
structure SrtCue where
  start : String
  stop : String
  text : String
deriving DecidableEq

/-- One `Dialogue:` line written by `create_ass_file`: either the fully
transparent gap filler (written with the `{\alpha&HFF&}` override and blank
text) or a visible subtitle event. -/
inductive AssEvent where
  | filler : String → String → AssEvent
  | visible : String → String → String → AssEvent
deriving DecidableEq

/-- True exactly on filler events. -/
def AssEvent.isFiller : AssEvent → Bool
  | .filler _ _ => true
  | .visible _ _ _ => false

/-- The event loop of `create_ass_file` (integrating_srtfile.py lines
220-238) with the running `previous_end` explicit: for each cue, convert its
timestamps; if `previous_end != start`, first write a transparent filler
`Dialogue` line spanning `[previous_end, start)`; then write the cue's own
`Dialogue` line and continue with `previous_end = end`. -/
def ass_events_from (previous_end : String) : List SrtCue → List AssEvent
  | [] => []
  | cue :: rest =>
    let start := convert_srt_time_to_ass cue.start
    let stop := convert_srt_time_to_ass cue.stop
    (if previous_end ≠ start then [AssEvent.filler previous_end start] else [])
      ++ AssEvent.visible start stop cue.text :: ass_events_from stop rest

/-- The event sequence `create_ass_file` writes after the header,
`previous_end` being initialised to `"0:00:00.00"` (line 220). -/
def create_ass_events (cues : List SrtCue) : List AssEvent :=
  ass_events_from "0:00:00.00" cues

/-- The per-language style parameters of `LANGUAGE_CONFIG`
(language_const.py). -/
structure LangStyle where
  font_name : String
  font_size : Nat
  font_color : String
  font_file : String
deriving DecidableEq

/-- `LANGUAGE_CONFIG` (language_const.py lines 21-106), as an association
list keyed by language code. -/
def LANGUAGE_CONFIG : List (String × LangStyle) :=
  [("hi", ⟨"Noto Sans Devanagari", 32, "&H0000FF00", "NotoSansDevanagari-Regular.ttf"⟩),
   ("kn", ⟨"Noto Sans Kannada", 28, "&H00FFFFFF", "NotoSansKannada-Regular.ttf"⟩),
   ("ta", ⟨"Noto Sans Tamil", 30, "&H00FFFF00", "NotoSansTamil-Regular.ttf"⟩),
   ("ml", ⟨"Noto Sans Malayalam", 32, "&H0000FF00", "NotoSansMalayalam-Regular.ttf"⟩),
   ("gu", ⟨"Noto Sans Gujarati", 32, "&H0000FF00", "NotoSansGujarati-Regular.ttf"⟩),
   ("mr", ⟨"Noto Sans Devanagari", 32, "&H0000FF00", "NotoSansDevanagari-Regular.ttf"⟩),
   ("es", ⟨"Noto Sans", 32, "&H0000FF00", "NotoSans-Regular.ttf"⟩),
   ("ms", ⟨"Noto Sans", 32, "&H0000FF00", "NotoSans-Regular.ttf"⟩),
   ("id", ⟨"Noto Sans", 32, "&H0000FF00", "NotoSans-Regular.ttf"⟩),
   ("bho", ⟨"Noto Sans Devanagari", 32, "&H0000FF00", "NotoSansDevanagari-Regular.ttf"⟩),
   ("ar", ⟨"Amiri", 32, "&H00FFFFFF", "Amiri-Regular.ttf"⟩),
   ("sw", ⟨"Noto Sans", 30, "&H00FFFF00", "NotoSans-Regular.ttf"⟩),
   ("si", ⟨"Noto Sans Sinhala", 30, "&H0000FF00", "NotoSansSinhala-Regular.ttf"⟩),
   ("te", ⟨"Noto Sans Telugu", 30, "&H00FFA500", "NotoSansTelugu-Regular.ttf"⟩)]

/-- The `Style: Default,...` header line `create_ass_file` writes
(integrating_srtfile.py lines 212-213), built from the selected entry's
`font_name`, `font_size` and `font_color`. -/
def styleLine (config : LangStyle) : String :=
  "Style: Default," ++ config.font_name ++ "," ++ Nat.repr config.font_size ++ ","
    ++ config.font_color ++ ",0,0,1,0.5,2,10,10,10,0"

/-- `VideoProcessor.create_ass_file` (integrating_srtfile.py lines 191-238),
as the style header line and the event sequence it writes for the given
cues.  `config = LANGUAGE_CONFIG[language]` (line 194) raises `KeyError`
when the language code has no entry — before anything is written — modelled
as `Except.error` carrying the missing key. -/
def create_ass_file (cues : List SrtCue) (language : String) :
    Except String (String × List AssEvent) :=
  match LANGUAGE_CONFIG.lookup language with
  | none => .error language
  | some config => .ok (styleLine config, create_ass_events cues)

/-- C3 counterexample: on the two contiguous cues
`[{start:1.0,end:2.0,text:"A"},{start:2.0,end:3.0,text:"B"}]` (SRT
timestamps `00:00:01,000` etc.) the event loop does NOT emit zero filler
events: `previous_end` is initialised to `"0:00:00.00"`, which differs from
the first cue's converted start `"0:00:01.00"`, so a leading filler is
emitted and the filler count is 1. -/
theorem C3_contiguous_counterexample :
    ¬ ((create_ass_events
          [⟨"00:00:01,000", "00:00:02,000", "A"⟩,
           ⟨"00:00:02,000", "00:00:03,000", "B"⟩]).countP AssEvent.isFiller = 0) := by
  decide

/-- C3 (amended): on the contiguous cues `[1.0,2.0)"A"`, `[2.0,3.0)"B"` the
loop emits exactly two visible events and exactly one filler — the leading
filler covering `[0:00:00.00, 0:00:01.00)` — with no filler between the two
cues; on the gapped cues `[1.0,2.0)`, `[3.0,4.0)` it emits the same leading
filler plus exactly one filler covering `[0:00:02.00, 0:00:03.00)` between
the two visible events. -/
theorem C3_gap_fill_events :
    create_ass_events
        [⟨"00:00:01,000", "00:00:02,000", "A"⟩, ⟨"00:00:02,000", "00:00:03,000", "B"⟩]
      = [AssEvent.filler "0:00:00.00" "0:00:01.00",
         AssEvent.visible "0:00:01.00" "0:00:02.00" "A",
         AssEvent.visible "0:00:02.00" "0:00:03.00" "B"]
    ∧ create_ass_events
        [⟨"00:00:01,000", "00:00:02,000", "A"⟩, ⟨"00:00:03,000", "00:00:04,000", "B"⟩]
      = [AssEvent.filler "0:00:00.00" "0:00:01.00",
         AssEvent.visible "0:00:01.00" "0:00:02.00" "A",
         AssEvent.filler "0:00:02.00" "0:00:03.00",
         AssEvent.visible "0:00:03.00" "0:00:04.00" "B"] := by
  constructor
  · decide
  · decide

/-- C10: the generated timeline begins with a transparent filler covering
`[0:00:00.00, firstCue.start)` exactly when the first cue's converted start
differs from `"0:00:00.00"` (the initial value of the gap-fill comparison
point), and begins with the first cue's own visible event exactly when the
converted start equals `"0:00:00.00"`. -/
theorem C10_leading_filler (c : SrtCue) (rest : List SrtCue) :
    ((create_ass_events (c :: rest)).head?
        = some (AssEvent.filler "0:00:00.00" (convert_srt_time_to_ass c.start))
      ↔ convert_srt_time_to_ass c.start ≠ "0:00:00.00")
    ∧ ((create_ass_events (c :: rest)).head?
        = some (AssEvent.visible (convert_srt_time_to_ass c.start)
            (convert_srt_time_to_ass c.stop) c.text)
      ↔ convert_srt_time_to_ass c.start = "0:00:00.00") := by
  by_cases h : convert_srt_time_to_ass c.start = "0:00:00.00"
  · simp [create_ass_events, ass_events_from, h]
  · have h2 : ¬ ("0:00:00.00" = convert_srt_time_to_ass c.start) := fun hz => h hz.symm
    simp [create_ass_events, ass_events_from, h, h2]

/-- C9: when the requested language code has no entry in `LANGUAGE_CONFIG`,
`create_ass_file` fails with the missing key (Python raises `KeyError`
before writing anything) rather than producing output with a default style;
when there is an entry, the emitted style header line carries exactly that
entry's font name, font size and primary colour. -/
theorem C9_style_config (cues : List SrtCue) :
    create_ass_file cues "xx" = .error "xx"
    ∧ (∀ language, LANGUAGE_CONFIG.lookup language = none →
        create_ass_file cues language = .error language)
    ∧ (∀ language config, LANGUAGE_CONFIG.lookup language = some config →
        create_ass_file cues language
          = .ok ("Style: Default," ++ config.font_name ++ "," ++ Nat.repr config.font_size
              ++ "," ++ config.font_color ++ ",0,0,1,0.5,2,10,10,10,0",
              create_ass_events cues))
    ∧ create_ass_file cues "hi"
      = .ok ("Style: Default,Noto Sans Devanagari,32,&H0000FF00,0,0,1,0.5,2,10,10,10,0",
          create_ass_events cues) := by
  refine ⟨rfl, ?_, ?_, rfl⟩
  · intro language h
    simp [create_ass_file, h]
  · intro language config h
    simp [create_ass_file, h, styleLine]

/-- Witness for C9: the unknown code `"en"` (absent from `LANGUAGE_CONFIG`)
is rejected, and the known code `"ta"` gets exactly its configured Tamil
font, size and colour. -/
theorem C9_style_config_witness :
    create_ass_file [] "en" = .error "en"
    ∧ create_ass_file [] "ta"
      = .ok ("Style: Default," ++ "Noto Sans Tamil" ++ "," ++ Nat.repr 30
          ++ "," ++ "&H00FFFF00" ++ ",0,0,1,0.5,2,10,10,10,0", create_ass_events []) :=
  ⟨(C9_style_config []).2.1 "en" (by decide),
   (C9_style_config []).2.2.1 "ta"
     ⟨"Noto Sans Tamil", 30, "&H00FFFF00", "NotoSansTamil-Regular.ttf"⟩ (by decide)⟩

/-! Format validation: `validate_video_formats` (integrating_srtfile.py
lines 106-117). -/

/-- The `(codec_name, width, height)` triple `get_video_info` probes for a
clip (integrating_srtfile.py lines 92-104). -/
structure VideoFormat where
  codec_name : String
  width : Nat
  height : Nat
deriving DecidableEq

/-- The two failures `validate_video_formats` can raise: a missing file
(`FileNotFoundError`, naming the joined path) or an incompatible format
(`ValueError`, naming the offending relative path and both format
triples). -/
inductive ValidationError where
  | fileNotFound : String → ValidationError
  | mismatch : String → VideoFormat → VideoFormat → ValidationError
deriving DecidableEq

/-- The loop of `validate_video_formats` with the running `baseline`
explicit.  `probe` stands for `get_video_info` and `present` for
`os.path.exists`, both on the `os.path.join(base_dir, path)` name (joined
with `"/"`; `base_dir` carries no trailing slash). -/
def validate_from (probe : String → VideoFormat) (present : String → Bool)
    (base_dir : String) : Option VideoFormat → List String → Except ValidationError Unit
  | _, [] => .ok ()
  | baseline, path :: rest =>
    let full_path := base_dir ++ "/" ++ path
    if present full_path then
      let info := probe full_path
      match baseline with
      | none => validate_from probe present base_dir (some info) rest
      | some b =>
        if info ≠ b then .error (.mismatch path info b)
        else validate_from probe present base_dir (some b) rest
    else .error (.fileNotFound full_path)

/-- `VideoProcessor.validate_video_formats` (integrating_srtfile.py lines
106-117): walk the candidate paths with `baseline = None`; the first probed
clip establishes the baseline; any later clip whose probed
`(codec_name, width, height)` differs raises at once. -/
def validate_video_formats (probe : String → VideoFormat) (present : String → Bool)
    (base_dir : String) (video_paths : List String) : Except ValidationError Unit :=
  validate_from probe present base_dir none video_paths

theorem validate_from_ok (probe : String → VideoFormat) (present : String → Bool)
    (base_dir : String) (b : VideoFormat) :
    ∀ (paths : List String),
    (∀ p ∈ paths, present (base_dir ++ "/" ++ p) = true) →
    (∀ p ∈ paths, probe (base_dir ++ "/" ++ p) = b) →
    validate_from probe present base_dir (some b) paths = .ok () := by
  intro paths
  induction paths with
  | nil => intro _ _; rfl
  | cons p rest ih =>
    intro hex hpr
    have h1 := hex p (List.mem_cons_self _ _)
    have h2 := hpr p (List.mem_cons_self _ _)
    simp only [validate_from, h1, if_true, h2]
    rw [if_neg (by simp)]
    exact ih (fun q hq => hex q (List.mem_cons_of_mem _ hq))
      (fun q hq => hpr q (List.mem_cons_of_mem _ hq))

theorem validate_from_err (probe : String → VideoFormat) (present : String → Bool)
    (base_dir : String) (b : VideoFormat) :
    ∀ (pre : List String) (q : String) (suff : List String),
    (∀ p ∈ pre, present (base_dir ++ "/" ++ p) = true) →
    present (base_dir ++ "/" ++ q) = true →
    (∀ p ∈ pre, probe (base_dir ++ "/" ++ p) = b) →
    probe (base_dir ++ "/" ++ q) ≠ b →
    validate_from probe present base_dir (some b) (pre ++ q :: suff)
      = .error (.mismatch q (probe (base_dir ++ "/" ++ q)) b) := by
  intro pre
  induction pre with
  | nil =>
    intro q suff _ hqex _ hqne
    simp only [List.nil_append, validate_from, hqex, if_true]
    rw [if_pos hqne]
  | cons p rest ih =>
    intro q suff hex hqex hpr hqne
    have h1 := hex p (List.mem_cons_self _ _)
    have h2 := hpr p (List.mem_cons_self _ _)
    simp only [List.cons_append, validate_from, h1, if_true, h2]
    rw [if_neg (by simp)]
    exact ih q suff (fun r hr => hex r (List.mem_cons_of_mem _ hr)) hqex
      (fun r hr => hpr r (List.mem_cons_of_mem _ hr)) hqne

/-- C6: the validator probes each clip's `(codec_name, width, height)`; the
first probed clip establishes the baseline; on a set whose clips all share
one profile it returns normally, and as soon as any later clip differs from
the baseline in any of the three fields it fails, naming the offending file
and both format triples. -/
theorem C6_validate_uniform (probe : String → VideoFormat) (present : String → Bool)
    (base_dir : String) (video_paths : List String)
    (hex : ∀ p ∈ video_paths, present (base_dir ++ "/" ++ p) = true) :
    ((∀ p ∈ video_paths, ∀ q ∈ video_paths,
        probe (base_dir ++ "/" ++ p) = probe (base_dir ++ "/" ++ q)) →
      validate_video_formats probe present base_dir video_paths = .ok ())
    ∧ (∀ (first : String) (pre : List String) (q : String) (suff : List String),
        video_paths = first :: (pre ++ q :: suff) →
        (∀ r ∈ pre, probe (base_dir ++ "/" ++ r) = probe (base_dir ++ "/" ++ first)) →
        probe (base_dir ++ "/" ++ q) ≠ probe (base_dir ++ "/" ++ first) →
        validate_video_formats probe present base_dir video_paths
          = .error (.mismatch q (probe (base_dir ++ "/" ++ q))
              (probe (base_dir ++ "/" ++ first)))) := by
  constructor
  · intro huni
    cases video_paths with
    | nil => rfl
    | cons first rest =>
      have h1 := hex first (List.mem_cons_self _ _)
      simp only [validate_video_formats, validate_from, h1, if_true]
      exact validate_from_ok probe present base_dir _ rest
        (fun q hq => hex q (List.mem_cons_of_mem _ hq))
        (fun q hq => huni q (List.mem_cons_of_mem _ hq) first (List.mem_cons_self _ _))
  · intro first pre q suff hsplit hpre hqne
    subst hsplit
    have h1 := hex first (List.mem_cons_self _ _)
    simp only [validate_video_formats, validate_from, h1, if_true]
    exact validate_from_err probe present base_dir _ pre q suff
      (fun r hr => hex r (List.mem_cons_of_mem _ (List.mem_append_left _ hr)))
      (hex q (List.mem_cons_of_mem _ (List.mem_append_right _ (List.mem_cons_self _ _))))
      hpre hqne

/-- Witness for C6: two clips probing to `h264` at different resolutions are
rejected, naming the second file and both triples; the same probe on a
single-element (hence uniform) set passes. -/
theorem C6_validate_uniform_witness :
    validate_video_formats
        (fun p => if p = "d/a.mp4" then ⟨"h264", 1920, 1080⟩ else ⟨"h264", 1280, 720⟩)
        (fun _ => true) "d" ["a.mp4", "b.mp4"]
      = .error (.mismatch "b.mp4" ⟨"h264", 1280, 720⟩ ⟨"h264", 1920, 1080⟩)
    ∧ validate_video_formats
        (fun p => if p = "d/a.mp4" then ⟨"h264", 1920, 1080⟩ else ⟨"h264", 1280, 720⟩)
        (fun _ => true) "d" ["a.mp4"]
      = .ok () :=
  ⟨(C6_validate_uniform _ _ "d" ["a.mp4", "b.mp4"] (by decide)).2
      "a.mp4" [] "b.mp4" [] rfl (by simp) (by decide),
   (C6_validate_uniform _ _ "d" ["a.mp4"] (by decide)).1 (by decide)⟩

/-- Witness for C10 at a single cue starting at `00:00:01,000`. -/
theorem C10_leading_filler_witness :
    (((create_ass_events [⟨"00:00:01,000", "00:00:02,000", "A"⟩]).head?
        = some (AssEvent.filler "0:00:00.00" (convert_srt_time_to_ass "00:00:01,000"))
      ↔ convert_srt_time_to_ass "00:00:01,000" ≠ "0:00:00.00")
      ∧ ((create_ass_events [⟨"00:00:01,000", "00:00:02,000", "A"⟩]).head?
        = some (AssEvent.visible (convert_srt_time_to_ass "00:00:01,000")
            (convert_srt_time_to_ass "00:00:02,000") "A")
      ↔ convert_srt_time_to_ass "00:00:01,000" = "0:00:00.00")) :=
  C10_leading_filler ⟨"00:00:01,000", "00:00:02,000", "A"⟩ []
